import Mathlib

/-!
# Verification of the FeedBackResolver feedback-classification-and-reply pipeline

Shallow embedding of the core pipeline of the FeedBackResolver repository:
the AI triage stage (`AIAnalyzer._triageEmail` / `_triageEmailWithReply` and
their driving loops), the batch consolidator (`_performConsolidatedAnalysis`,
`_processBatch`), the report assembler (`_generateReport`, `_extractSummary`),
the Gmail dedup pipeline (`GmailProcessor.process`, `_saveProcessedEmails`),
the reply approval workflow (`ReplyApprovalWorkflow`) and the reply dispatcher
(`GmailReplySender.sendBatch`).

JavaScript dynamic values that flow out of the model-response JSON are
modelled by `JsValue` (booleans, strings, rationals for JS numbers, null),
with `undefined` represented as `Option.none` one level up.  The external
text-generation service is a function parameter: per email it yields either a
thrown error or the result of `_extractJsonFromResponse` on the raw response
text (that extractor catches all of its own errors and returns null on any
parse failure, so its outcome is `Option JsonObj`).
-/

/-! String operations are modelled over the underlying character lists so
that every definition evaluates by kernel reduction. -/

/-- Occurrence of `pat` as a contiguous sublist of `hay`. -/
def charListIncludes (hay pat : List Char) : Bool :=
  match hay with
  | [] => pat.isEmpty
  | _ :: rest => pat.isPrefixOf hay || charListIncludes rest pat

/-- Substring test (JavaScript `String.prototype.includes`). -/
def strIncludes (s pat : String) : Bool :=
  charListIncludes s.data pat.data

/-- Lowercasing (JavaScript `String.prototype.toLowerCase`). -/
def strToLower (s : String) : String :=
  ⟨s.data.map Char.toLower⟩

/-- Whitespace trim on both ends (JavaScript `String.prototype.trim`). -/
def strTrim (s : String) : String :=
  ⟨((s.data.dropWhile Char.isWhitespace).reverse.dropWhile
      Char.isWhitespace).reverse⟩

/-- Prefix test (JavaScript `String.prototype.startsWith`). -/
def strStartsWith (s pre : String) : Bool :=
  pre.data.isPrefixOf s.data

/-- Split at each non-overlapping occurrence of `sep` (left to right), with
the fuel bounding the scan length; `acc` holds the reversed current piece. -/
def splitOnListAux (sep : List Char) : Nat → List Char → List Char →
    List (List Char)
  | _, [], acc => [acc.reverse]
  | 0, hay, acc => [acc.reverse ++ hay]
  | fuel + 1, c :: rest, acc =>
      if sep.isPrefixOf (c :: rest) then
        acc.reverse :: splitOnListAux sep fuel ((c :: rest).drop sep.length) []
      else splitOnListAux sep fuel rest (c :: acc)

/-- Splitting on a separator string (the behaviour of `String.splitOn`, which
models both a JS `split` and a global regex scan over literal separators). -/
def strSplitOn (s sep : String) : List String :=
  if sep.data.isEmpty then [s]
  else (splitOnListAux sep.data s.data.length s.data []).map fun l => ⟨l⟩

/-- A JavaScript runtime value as it appears in parsed model JSON.
Numbers are modelled as rationals. -/
inductive JsValue where
  | bool (b : Bool)
  | str (s : String)
  | num (q : Rat)
  | null
  deriving Repr, DecidableEq

/-- JavaScript truthiness of a value. -/
def JsValue.truthy : JsValue → Bool
  | .bool b => b
  | .str s => !s.isEmpty
  | .num q => q != 0
  | .null => false

/-- JavaScript `a || b` where `a` may be `undefined` (`none`). -/
def jsOr (a : Option JsValue) (b : JsValue) : JsValue :=
  match a with
  | some v => if v.truthy then v else b
  | none => b

/-- JavaScript `a || null` where `a` may be `undefined`: the result is the
value when truthy and `null` (here `none`) otherwise. -/
def jsOrNull (a : Option JsValue) : Option JsValue :=
  match a with
  | some v => if v.truthy then some v else none
  | none => none

/-- JavaScript `x.trim()` on a value produced by `x || <string>`: only a
string has a `trim` method; on any other value the call throws a TypeError,
which the try/catch of the caller turns into the per-email failure default. -/
def jsTrim : JsValue → Except String String
  | .str s => .ok (strTrim s)
  | _ => .error "TypeError: trim is not a function"

/-- A normalized email record as produced by `GmailProcessor._fetchSingleEmail`
(the `from` field is renamed `fromAddr`, `from` being a Lean keyword). -/
structure Email where
  id : String
  fromAddr : String
  subject : String
  date : String
  body : String
  threadId : String
  deriving Repr, DecidableEq

/-- The JSON object extracted from a triage response, with every field
optional (`none` = absent) and dynamically typed. -/
structure JsonObj where
  isRelevant : Option JsValue
  isReplyable : Option JsValue
  cleanedMessage : Option JsValue
  suggestedReply : Option JsValue
  replyReason : Option JsValue
  replyConfidence : Option JsValue
  confidence : Option JsValue
  category : Option JsValue
  deriving Repr, DecidableEq

/-- A `JsonObj` with all fields absent. -/
def JsonObj.empty : JsonObj :=
  ⟨none, none, none, none, none, none, none, none⟩

/-- The function `AIAnalyzer._isNoReplyAddress`: substring match of the lowercased sender
address against the fixed no-reply pattern list; an empty (falsy) address
counts as no-reply. -/
def isNoReplyAddress (emailAddress : String) : Bool :=
  if emailAddress.data.isEmpty then true
  else
    let lowerEmail := strToLower emailAddress
    [ "noreply", "no-reply", "no_reply", "donotreply", "do-not-reply",
      "do_not_reply", "notifications@", "automated@", "system@", "mailer@",
      "daemon@", "postmaster@" ].any (fun pattern => strIncludes lowerEmail pattern)

/-- The conditional sentence interpolated into the triage-with-reply prompt:
`isNoReply ? <hard instruction> : <neutral check>` from
`AIAnalyzer._buildTriageWithReplyPrompt`. -/
def promptNoReplyHint (email : Email) : String :=
  if isNoReplyAddress email.fromAddr then
    "This is a NO-REPLY address - set isReplyable to FALSE regardless of content."
  else
    "Check if this is a replyable address."

/-- The function `AIAnalyzer._buildTriageWithReplyPrompt`: the classification prompt.
The long static guidance paragraphs are abridged to their anchor lines; the
dynamic structure (the interpolated sender, the conditional no-reply hint and
the email block) is kept exactly. -/
def buildTriageWithReplyPrompt (email : Email) : String :=
  "\nAnalyze the following email and determine:\n" ++
  "1. If it is a relevant business communication\n" ++
  "2. If it requires a reply from us\n\n" ++
  "**CRITICAL: The sender email is \"" ++ email.fromAddr ++ "\". " ++
  promptNoReplyHint email ++ "**\n\n" ++
  "Return result as JSON.\n\nEmail to analyze:\n---\n" ++
  "From: " ++ email.fromAddr ++ "\n" ++
  "Subject: " ++ email.subject ++ "\n" ++
  "Date: " ++ email.date ++ "\n\n" ++
  email.body ++ "\n---\n\nJSON Response:"

/-- The object returned by `AIAnalyzer._triageEmailWithReply` (fields that a
branch leaves unset are `none` = `undefined`). -/
structure TriageReplyResult where
  isRelevant : Bool
  isReplyable : JsValue
  cleanedMessage : String
  suggestedReply : Option JsValue
  replyReason : Option JsValue
  replyConfidence : Option JsValue
  fromAddr : Option String
  confidence : Option JsValue
  category : Option JsValue
  deriving Repr, DecidableEq

/-- The function `AIAnalyzer._triageEmailWithReply`, given the outcome `parsed` of
`_extractJsonFromResponse` on the generation-service response.  A missing
object or a non-boolean `isRelevant` yields the safe default; otherwise every
field is taken from the parsed response with JS `||` defaulting.  The
`.trim()` call can throw when the model returned a truthy non-string
`cleanedMessage`; that exception propagates to the caller. -/
def triageEmailWithReply (parsed : Option JsonObj) (email : Email) :
    Except String TriageReplyResult :=
  match parsed with
  | none =>
      .ok ⟨false, .bool false, email.body, none, none, none, some email.fromAddr,
           none, none⟩
  | some p =>
      match p.isRelevant with
      | some (.bool b) =>
          match jsTrim (jsOr p.cleanedMessage (.str email.body)) with
          | .error e => .error e
          | .ok cleaned =>
              .ok ⟨b, jsOr p.isReplyable (.bool false), cleaned,
                   jsOrNull p.suggestedReply, jsOrNull p.replyReason,
                   jsOrNull p.replyConfidence, some email.fromAddr,
                   jsOrNull p.confidence, jsOrNull p.category⟩
      | _ =>
          .ok ⟨false, .bool false, email.body, none, none, none, some email.fromAddr,
               none, none⟩

/-- One entry of the list built by `AIAnalyzer._triageEmailsWithReplyDetection`:
the triage result spread together with the email (and the error message in the
catch branch). -/
structure TriageReplyItem where
  isRelevant : Bool
  isReplyable : JsValue
  cleanedMessage : String
  suggestedReply : Option JsValue
  replyReason : Option JsValue
  replyConfidence : Option JsValue
  fromAddr : Option String
  confidence : Option JsValue
  category : Option JsValue
  email : Email
  error : Option String
  deriving Repr, DecidableEq

/-- The body of the per-email loop of `_triageEmailsWithReplyDetection`:
run the single-email triage (service call + parse) and catch any exception
into the not-relevant / not-replyable default that keeps the original body. -/
def triageReplyItemFor (gen : Email → Except String (Option JsonObj))
    (email : Email) : TriageReplyItem :=
  match gen email with
  | .error msg =>
      ⟨false, .bool false, email.body, none, none, none, none, none, none,
       email, some msg⟩
  | .ok parsed =>
      match triageEmailWithReply parsed email with
      | .ok r =>
          ⟨r.isRelevant, r.isReplyable, r.cleanedMessage, r.suggestedReply,
           r.replyReason, r.replyConfidence, r.fromAddr, r.confidence,
           r.category, email, none⟩
      | .error msg =>
          ⟨false, .bool false, email.body, none, none, none, none, none, none,
           email, some msg⟩

/-- The function `AIAnalyzer._triageEmailsWithReplyDetection`: sequential loop over the
emails, one generation-service call each, all failures caught per email. -/
def triageEmailsWithReplyDetection (gen : Email → Except String (Option JsonObj)) :
    List Email → List TriageReplyItem
  | [] => []
  | e :: rest => triageReplyItemFor gen e :: triageEmailsWithReplyDetection gen rest

/-- The object returned by `AIAnalyzer._triageEmail` (relevance-only triage
used by `analyze`). -/
structure TriageResult where
  isRelevant : Bool
  cleanedMessage : String
  fromAddr : Option String
  confidence : Option JsValue
  category : Option JsValue
  deriving Repr, DecidableEq

/-- The function `AIAnalyzer._triageEmail`, given the parse outcome of the response. -/
def triageEmail (parsed : Option JsonObj) (email : Email) :
    Except String TriageResult :=
  match parsed with
  | none => .ok ⟨false, email.body, some email.fromAddr, none, none⟩
  | some p =>
      match p.isRelevant with
      | some (.bool b) =>
          match jsTrim (jsOr p.cleanedMessage (.str email.body)) with
          | .error e => .error e
          | .ok cleaned =>
              .ok ⟨b, cleaned, some email.fromAddr, jsOrNull p.confidence,
                   jsOrNull p.category⟩
      | _ => .ok ⟨false, email.body, some email.fromAddr, none, none⟩

/-- One entry of the list built by `AIAnalyzer._triageEmails`. -/
structure TriageItem where
  isRelevant : Bool
  cleanedMessage : String
  fromAddr : Option String
  confidence : Option JsValue
  category : Option JsValue
  email : Email
  error : Option String
  deriving Repr, DecidableEq

/-- The body of the per-email loop of `_triageEmails`: triage one email and
catch any failure into the not-relevant default keeping the original body. -/
def triageItemFor (gen : Email → Except String (Option JsonObj))
    (email : Email) : TriageItem :=
  match gen email with
  | .error msg => ⟨false, email.body, none, none, none, email, some msg⟩
  | .ok parsed =>
      match triageEmail parsed email with
      | .ok r =>
          ⟨r.isRelevant, r.cleanedMessage, r.fromAddr, r.confidence,
           r.category, email, none⟩
      | .error msg => ⟨false, email.body, none, none, none, email, some msg⟩

/-- The function `AIAnalyzer._triageEmails`: sequential per-email loop, failures caught. -/
def triageEmails (gen : Email → Except String (Option JsonObj)) :
    List Email → List TriageItem
  | [] => []
  | e :: rest => triageItemFor gen e :: triageEmails gen rest

/-! ## Batch consolidation -/

/-- Fuel-indexed chunking loop: `for (i = 0; i < len; i += K) slice(i, i+K)`
from `_performConsolidatedAnalysis`, with the fuel bounding the number of
iterations (the caller supplies `l.length`, which always suffices). -/
def chunksOfAux (K : Nat) : Nat → List α → List (List α)
  | 0, _ => []
  | _, [] => []
  | fuel + 1, l => l.take K :: chunksOfAux K fuel (l.drop K)

/-- The chunks `slice(0,K), slice(K,2K), ...` of a list. -/
def chunksOf (K : Nat) (l : List α) : List (List α) :=
  chunksOfAux K l.length l

/-- The fixed batch size of `_performConsolidatedAnalysis`. -/
def BATCH_SIZE : Nat := 15

/-- The `(From: ...) [RELEVANT|GENERAL]\n<cleanedMessage>` block list joined
with `---` separators, from `AIAnalyzer._processBatch` (an absent `from`
prints as `undefined`, as JS string interpolation does). -/
def emailBatchText (triageResults : List TriageItem) : String :=
  String.intercalate "\n\n---\n\n"
    (triageResults.map fun r =>
      "(From: " ++ r.fromAddr.getD "undefined" ++ ") [" ++
      (if r.isRelevant then "RELEVANT" else "GENERAL") ++ "]\n" ++
      r.cleanedMessage)

/-- The function `AIAnalyzer._buildConsolidatedPrompt`, abridged to its dynamic structure:
the long static report-template paragraphs are constants that no claim
inspects; the embedded batch text is kept exactly. -/
def buildConsolidatedPrompt (emailBatch : String) : String :=
  "\nAnalyze the entire block of text below, which contains multiple cleaned email messages separated by \"---\".\n" ++
  "Messages to analyze:\n---\n" ++ emailBatch ++ "\n---\n\nConsolidated Report:"

/-- The function `AIAnalyzer._processBatch`: one generation-service call on the prompt
built for the batch; `gen` maps the prompt text to the response content. -/
def processBatch (gen : String → String) (triageResults : List TriageItem) : String :=
  gen (buildConsolidatedPrompt (emailBatchText triageResults))

/-- The chunk structure of one consolidation run with chunk size `K`: the

single batch when the input fits, otherwise the `slice` chunks.  Each entry
is the item list of exactly one `_processBatch` generation-service call. -/
def consolidatedBatches (K : Nat) (l : List TriageItem) : List (List TriageItem) :=
  if l.length ≤ K then [l] else chunksOf K l

/-- The function `_performConsolidatedAnalysis` generalized over the chunk size: one call
when the input fits in a single batch, otherwise one call per chunk with the
outputs joined by the `## Next Batch` separator. -/
def performConsolidatedAnalysisWith (K : Nat) (gen : String → String)
    (allTriageResults : List TriageItem) : String :=
  if allTriageResults.length ≤ K then processBatch gen allTriageResults
  else
    String.intercalate "\n\n---\n\n## Next Batch\n\n"
      ((chunksOf K allTriageResults).map (processBatch gen))

/-- The function `AIAnalyzer._performConsolidatedAnalysis`: the code path with its
hard-coded `BATCH_SIZE = 15`. -/
def performConsolidatedAnalysis (gen : String → String)
    (allTriageResults : List TriageItem) : String :=
  performConsolidatedAnalysisWith BATCH_SIZE gen allTriageResults

/-! ## Report assembly -/

/-- The category captures of `/### ([^#\n]+)/g` in `_extractSummary`: for each
occurrence of `### `, the following maximal run of characters other than `#`
and newline (required non-empty), trimmed. -/
def extractCategories (analysisContent : String) : List String :=
  ((strSplitOn analysisContent "### ").drop 1).filterMap fun part =>
    let captured := part.data.takeWhile fun c => c != '#' && c != '\n'
    if captured.isEmpty then none else some (strTrim ⟨captured⟩)

/-- Whether a line matches the bullet regex `/^\s*\*\s+.+$/` of
`_extractSummary`: optional leading whitespace, a star, at least one
whitespace character, then at least one character. -/
def isBulletLine (line : String) : Bool :=
  match line.data.dropWhile Char.isWhitespace with
  | '*' :: afterStar =>
      let afterWs := afterStar.dropWhile Char.isWhitespace
      decide (afterWs.length < afterStar.length) && !afterWs.isEmpty
  | _ => false

/-- The function `AIAnalyzer._extractSummary`: best-effort categories and key insights
scraped from the consolidated text (returns `(categories, insights)`). -/
def extractSummary (analysisContent : String) : List String × List String :=
  let categories := extractCategories analysisContent
  let itemCount := ((strSplitOn analysisContent "\n").filter isBulletLine).length
  let insights :=
    (if itemCount > 0 then
       [toString itemCount ++ " feedback items identified across " ++
        toString categories.length ++ " categories"]
     else []) ++
    (if strIncludes analysisContent "Technical" then
       ["Technical issues and integration requests present"] else []) ++
    (if strIncludes analysisContent "Feature" then
       ["Feature enhancement requests identified"] else []) ++
    (if strIncludes analysisContent "Meeting" then
       ["Meeting and scheduling requests found"] else [])
  (categories, insights)

/-- The summary block of a generated report. -/
structure ReportSummary where
  totalEmails : Nat
  relevantEmails : Nat
  generalEmails : Nat
  categories : List String
  keyInsights : List String
  deriving Repr, DecidableEq

/-- A generated analysis report.  The wall-clock `timestamp` and the
provider/model `metadata` of the source object carry no analysed content and
are not modelled. -/
structure Report where
  summary : ReportSummary
  analysis : String
  deriving Repr, DecidableEq

/-- The function `AIAnalyzer._generateReport`. -/
def generateReport (consolidatedAnalysis : String)
    (relevantCount totalCount generalCount : Nat) : Report :=
  let extracted := extractSummary consolidatedAnalysis
  ⟨⟨totalCount, relevantCount, generalCount, extracted.1, extracted.2⟩,
   consolidatedAnalysis⟩

/-- The function `AIAnalyzer._generateEmptyReport` (the source object leaves
`generalEmails` undefined; modelled as 0, and the interpolated current date is
dropped from the analysis text). -/
def generateEmptyReport : Report :=
  ⟨⟨0, 0, 0, [], ["No emails found to analyze."]⟩,
   "# Feedback Analysis Report\n\nNo emails found to analyze."⟩

/-- The function `AIAnalyzer.analyze`: empty-input guard, triage of every email, the
relevant/general split, consolidation over ALL triage results, and the final
report. -/
def analyze (genT : Email → Except String (Option JsonObj))
    (genC : String → String) (emails : List Email) : Report :=
  if emails.length = 0 then generateEmptyReport
  else
    let triageResults := triageEmails genT emails
    let relevantEmails := triageResults.filter (·.isRelevant)
    let nonRelevantEmails := triageResults.filter fun r => !r.isRelevant
    let consolidatedAnalysis := performConsolidatedAnalysis genC triageResults
    generateReport consolidatedAnalysis relevantEmails.length emails.length
      nonRelevantEmails.length

/-! ## Gmail processor: dedup store and run structure -/

/-- JavaScript `arr.slice(-n)`: the last `n` elements (all of them when the
list is shorter). -/
def sliceLast (n : Nat) (l : List α) : List α := l.drop (l.length - n)

/-- The function `GmailProcessor._saveProcessedEmails`: the persisted id list is trimmed to
the last 1000 ids before writing. -/
def saveProcessedEmails (emailIds : List String) : List String :=
  sliceLast 1000 emailIds

/-- The observable outcome of one `GmailProcessor.process` run: the emails
handed to analysis and the dedup store contents after the run. -/
structure GmailRun where
  emails : List Email
  store : List String
  deriving Repr, DecidableEq

/-- The function `GmailProcessor.process` over a deterministic mail source: the fetch
returns the first `maxResults` source messages (the Gmail list call is capped
at `config.maxResults`), already-processed ids are filtered out, details are
fetched, and the updated id list is saved.  On the two early-return paths
(no messages, or none new) nothing is written. -/
def gmailProcess (maxResults : Nat) (store : List String)
    (source : List Email) : GmailRun :=
  let messages := source.take maxResults
  if messages.isEmpty then ⟨[], store⟩
  else
    let newMessages := messages.filter fun m => !store.contains m.id
    if newMessages.isEmpty then ⟨[], store⟩
    else
      let newIds := newMessages.map (·.id)
      ⟨newMessages, saveProcessedEmails (store ++ newIds)⟩

/-- The externally observable steps of one full `FeedbackResolver.analyze`
run, in order. -/
inductive RunEvent where
  | loadIds
  | fetchList
  | fetchDetail (id : String)
  | saveIds (ids : List String)
  | triageCall (id : String)
  | consolidate
  | notify
  deriving Repr, DecidableEq

/-- Event trace of `GmailProcessor.process`: load the processed ids, fetch the
message list, fetch details of each new message, then write the dedup store —
the write happens inside `process`, before control returns to the caller. -/
def gmailProcessTrace (maxResults : Nat) (store : List String)
    (source : List Email) : List RunEvent :=
  [.loadIds, .fetchList] ++
  (if (source.take maxResults).isEmpty then []
   else if ((source.take maxResults).filter
       (fun m => !store.contains m.id)).isEmpty then []
   else
     ((source.take maxResults).filter (fun m => !store.contains m.id)).map
       (fun m => .fetchDetail m.id) ++
     [.saveIds (saveProcessedEmails (store ++
        ((source.take maxResults).filter
           (fun m => !store.contains m.id)).map (fun m => m.id)))])

/-- Event trace of `AIAnalyzer.analyze`: one triage call per email, then the
consolidation stage (`_performConsolidatedAnalysis`); nothing on empty
input. -/
def analyzerTrace (emails : List Email) : List RunEvent :=
  if emails.length = 0 then []
  else emails.map (fun e => RunEvent.triageCall e.id) ++ [.consolidate]

/-- Event trace of `FeedbackResolver.analyze` in gmail mode:
`processor.process()` first, then `analyzer.analyze(emails)`, then the
notifiers. -/
def resolverAnalyzeTrace (maxResults : Nat) (store : List String)
    (source : List Email) : List RunEvent :=
  gmailProcessTrace maxResults store source ++
  analyzerTrace (gmailProcess maxResults store source).emails ++
  [.notify]

/-! ## Reply approval workflow -/

/-- The caller-supplied options of the `ReplyApprovalWorkflow` constructor
(`none` = key absent). -/
structure ApprovalConfigInput where
  requireApproval : Option Bool
  maxRepliesPerRun : Option Nat
  deriving Repr, DecidableEq

/-- The resolved workflow configuration. -/
structure ApprovalConfig where
  requireApproval : Bool
  maxRepliesPerRun : Nat
  deriving Repr, DecidableEq

/-- The `ReplyApprovalWorkflow` constructor:
`requireApproval: config.requireApproval !== false` (default true) and
`maxRepliesPerRun: config.maxRepliesPerRun || 50` (JS `||`, so an explicit 0
also falls back to 50). -/
def mkReplyApprovalWorkflow (config : ApprovalConfigInput) : ApprovalConfig :=
  ⟨(match config.requireApproval with
    | some false => false
    | _ => true),
   (match config.maxRepliesPerRun with
    | some n => if n = 0 then 50 else n
    | none => 50)⟩

/-- A reply candidate as consumed by the approval workflow (one entry of
`report.replyableEmails`); `replyConfidence` is number-or-null as the
TriageResult data model declares. -/
structure ReplyableItem where
  email : Email
  suggestedReply : String
  replyReason : Option String
  replyConfidence : Option Rat
  deriving Repr, DecidableEq

/-- An approved reply ready to send. -/
structure ApprovedReply where
  email : Email
  replyContent : String
  deriving Repr, DecidableEq

/-- A user answer at one interactive prompt (the six menu choices, with the
editor text for Edit). -/
inductive UserAction where
  | approve
  | edit (editedReply : String)
  | skip
  | approveAll
  | skipAll
  | quit
  deriving Repr, DecidableEq

/-- The action part of the decision object `_promptForSingleEmail` returns. -/
inductive DecisionAction where
  | approve
  | skip
  | approveAll
  | skipAll
  | quit
  deriving Repr, DecidableEq

/-- The decision object returned by `_promptForSingleEmail`: Edit re-prompts
in an editor and comes back as an approve carrying the edited text; every
other choice carries the suggested reply unchanged. -/
def promptForSingleEmail (item : ReplyableItem) (answer : UserAction) :
    DecisionAction × String :=
  match answer with
  | .edit editedReply => (.approve, editedReply)
  | .approve => (.approve, item.suggestedReply)
  | .skip => (.skip, item.suggestedReply)
  | .approveAll => (.approveAll, item.suggestedReply)
  | .skipAll => (.skipAll, item.suggestedReply)
  | .quit => (.quit, item.suggestedReply)

/-- The interactive loop of `promptForApproval`: walks the candidates with the
user answers (one answer consumed per prompt shown), honouring the
approve-all / skip-all / quit run-level transitions.  Returns the approved
list and the number of prompts shown.  Once approve-all is chosen the
remaining candidates are pushed without further prompting; skip-all and quit
stop immediately.  An exhausted answer list is modelled as stopping (the
real prompt would block forever). -/
def approvalLoop : List ReplyableItem → List UserAction →
    List ApprovedReply × Nat
  | [], _ => ([], 0)
  | _ :: _, [] => ([], 0)
  | item :: rest, answer :: more =>
      let decision := promptForSingleEmail item answer
      match decision.1 with
      | .approve =>
          let tail := approvalLoop rest more
          (⟨item.email, decision.2⟩ :: tail.1, tail.2 + 1)
      | .skip =>
          let tail := approvalLoop rest more
          (tail.1, tail.2 + 1)
      | .approveAll =>
          (⟨item.email, item.suggestedReply⟩ ::
             rest.map (fun it => ⟨it.email, it.suggestedReply⟩), 1)
      | .skipAll => ([], 1)
      | .quit => ([], 1)

/-- The function `ReplyApprovalWorkflow.promptForApproval`: when approval is not required,
every candidate is approved with no prompt; otherwise the interactive loop
runs (the empty-candidates early return coincides with the loop on `[]`). -/
def promptForApproval (w : ApprovalConfig) (replyableEmails : List ReplyableItem)
    (answers : List UserAction) : List ApprovedReply × Nat :=
  if !w.requireApproval then
    (replyableEmails.map (fun it => ⟨it.email, it.suggestedReply⟩), 0)
  else approvalLoop replyableEmails answers

/-- JS `c || d` on a number-or-null confidence (`0` is falsy). -/
def jsNumOr (c : Option Rat) (d : Rat) : Rat :=
  match c with
  | some q => if q = 0 then d else q
  | none => d

/-- The function `ReplyApprovalWorkflow.autoApprove`: filter by
`(item.replyConfidence || 0) >= confidenceThreshold` and map to approved
replies.  Note that the workflow configuration `w` — in particular
`w.maxRepliesPerRun` — is never consulted (the JS default threshold is
0.8). -/
def autoApprove (w : ApprovalConfig) (replyableEmails : List ReplyableItem)
    (confidenceThreshold : Rat) : List ApprovedReply :=
  (replyableEmails.filter fun it =>
      decide (confidenceThreshold ≤ jsNumOr it.replyConfidence 0)).map
    fun it => ⟨it.email, it.suggestedReply⟩

/-! ## Reply dispatch -/

/-- The function `GmailReplySender._extractEmail`: the first `<...>` span of the From
header (the `/<(.+?)>/` match); with no such span the whole header is used. -/
def extractEmail (fromHeader : String) : String :=
  match strSplitOn fromHeader "<" with
  | [] => fromHeader
  | [_] => fromHeader
  | _ :: p :: restParts =>
      let afterLt := String.intercalate "<" (p :: restParts)
      match strSplitOn afterLt ">" with
      | [] => fromHeader
      | [_] => fromHeader
      | captured :: _ => if captured.data.isEmpty then fromHeader else captured

/-- The reply subject: prefixed with `Re: ` unless already so prefixed
(from `GmailReplySender.sendReply`). -/
def replySubjectFor (originalEmail : Email) : String :=
  if strStartsWith originalEmail.subject "Re:" then originalEmail.subject
  else "Re: " ++ originalEmail.subject

/-- The per-send result object of `GmailReplySender.sendReply` (threading
fields and the sent-at timestamp omitted). -/
structure SendOutcome where
  success : Bool
  messageId : Option String
  error : Option String
  toAddr : String
  subject : String
  deriving Repr, DecidableEq

/-- The function `GmailReplySender.sendReply` over an abstract outbound transport: compose
the reply and send it; the try/catch turns a transport exception into a
failure record instead of propagating it. -/
def sendReply (transport : Email → String → Except String String)
    (originalEmail : Email) (replyContent : String) : SendOutcome :=
  match transport originalEmail replyContent with
  | .ok newMessageId =>
      ⟨true, some newMessageId, none, extractEmail originalEmail.fromAddr,
       replySubjectFor originalEmail⟩
  | .error e =>
      ⟨false, none, some e, extractEmail originalEmail.fromAddr,
       originalEmail.subject⟩

/-- The results object of `GmailReplySender.sendBatch`. -/
structure BatchSendResults where
  sent : List (SendOutcome × Email)
  failed : List (SendOutcome × Email)
  total : Nat
  deriving Repr, DecidableEq

/-- The loop of `sendBatch`: send every reply in sequence and push each
outcome to `sent` or `failed` (the inter-send pacing delay has no observable
effect here). -/
def sendBatchAux (transport : Email → String → Except String String) :
    List ApprovedReply → List (SendOutcome × Email) × List (SendOutcome × Email)
  | [] => ([], [])
  | r :: rest =>
      let result := sendReply transport r.email r.replyContent
      let tail := sendBatchAux transport rest
      if result.success then ((result, r.email) :: tail.1, tail.2)
      else (tail.1, (result, r.email) :: tail.2)

/-- The function `GmailReplySender.sendBatch`. -/
def sendBatch (transport : Email → String → Except String String)
    (repliesData : List ApprovedReply) : BatchSendResults :=
  let pair := sendBatchAux transport repliesData
  ⟨pair.1, pair.2, repliesData.length⟩

/-! ## Concrete test fixtures -/

/-- A small concrete email with the given id. -/
def sampleEmail (i : String) : Email :=
  ⟨i, "alice@example.com", "Login fails", "2025-11-30", "Login fails on v2.",
   "thread-" ++ i⟩

/-- A concrete email from a no-reply sender. -/
def noReplyEmail : Email :=
  ⟨"msg1", "notifications@example.com", "Build finished", "2025-11-30",
   "Your build finished.", "thread-1"⟩

/-- A parsed generation-service response claiming relevance and replyability.
-/
def replyClaimingResponse : JsonObj :=
  ⟨some (.bool true), some (.bool true), some (.str "Build finished."),
   some (.str "Thanks for the update."), some (.str "status question"),
   some (.num (mkRat 9 10)), some (.num (mkRat 9 10)),
   some (.str "technical")⟩

/-! ## C2: the max-replies-per-run cap -/

/-- Two reply candidates that both pass the 0.8 confidence threshold. -/
def twoHighConfidenceItems : List ReplyableItem :=
  [⟨sampleEmail "a", "Reply A", some "needs answer", some (mkRat 9 10)⟩,
   ⟨sampleEmail "b", "Reply B", some "needs answer", some (mkRat 9 10)⟩]

/-- Seventeen concrete triage items, so that the 15-item batch limit splits
them into two chunks. -/
def seventeenTriageItems : List TriageItem :=
  (List.range 17).map fun n =>
    ⟨decide (n % 2 = 0), "message " ++ Nat.repr n, some "alice@example.com",
     none, none, sampleEmail (Nat.repr n), none⟩

/-! ## C5: triage parse-failure fallback -/

/-- The parse-failure condition of the triage stage: the generation service
returned text from which no JSON could be extracted (`.ok none`), or the
extracted object has an `isRelevant` that is not a boolean.  (A thrown service error is
a different failure class, handled by the same catch.) -/
def triageParseFailed : Except String (Option JsonObj) → Bool
  | .ok none => true
  | .ok (some p) =>
      match p.isRelevant with
      | some (.bool _) => false
      | _ => true
  | .error _ => false

/-- The safe default triage item: not relevant, not replyable, the original
body as the cleaned message. -/
def safeDefaultTriageItem (email : Email) : TriageReplyItem :=
  ⟨false, .bool false, email.body, none, none, none, some email.fromAddr,
   none, none, email, none⟩

/-- Three concrete approved replies queued for dispatch. -/
def threeQueuedReplies : List ApprovedReply :=
  [⟨sampleEmail "r1", "Reply one"⟩, ⟨sampleEmail "r2", "Reply two"⟩,
   ⟨sampleEmail "r3", "Reply three"⟩]

/-- A transport that fails exactly the second of the three queued replies. -/
def failSecondTransport : Email → String → Except String String :=
  fun e _ => if e.id = "r2" then .error "quota exceeded"
             else .ok ("sent-" ++ e.id)

/-- Two concrete candidates: one without a confidence value, one with
confidence 1. -/
def mixedConfidenceItems : List ReplyableItem :=
  [⟨sampleEmail "c1", "Reply C1", none, none⟩,
   ⟨sampleEmail "c2", "Reply C2", some "question", some 1⟩]

/-- A dedup store already holding 1000 ids (the trim limit). -/
def thousandIdStore : List String := (List.range 1000).map fun n => Nat.repr n

/-- A source window containing one already-processed message (id `0`, present
in the store) and one new message. -/
def dedupSource : List Email := [sampleEmail "0", sampleEmail "x"]

/-! ## C9: dedup store read/write placement in a run -/

/-- Is this event a dedup-store write? -/
def isSaveEvent : RunEvent → Bool
  | .saveIds _ => true
  | _ => false

/-- Is this event the dedup-store read? -/
def isLoadEvent : RunEvent → Bool
  | .loadIds => true
  | _ => false

/-- Is this event part of the triage/consolidation (analysis) stages? -/
def isAnalysisEvent : RunEvent → Bool
  | .triageCall _ => true
  | .consolidate => true
  | _ => false

/-- Does some analysis event occur strictly before some store write? -/
def analysisBeforeSave : List RunEvent → Bool
  | [] => false
  | ev :: rest =>
      (isAnalysisEvent ev && rest.any isSaveEvent) || analysisBeforeSave rest

/-- Does some store write occur strictly before some analysis event? -/
def saveBeforeAnalysis : List RunEvent → Bool
  | [] => false
  | ev :: rest =>
      (isSaveEvent ev && rest.any isAnalysisEvent) || saveBeforeAnalysis rest

theorem triageEmailsWithReplyDetection_eq_map
    (gen : Email → Except String (Option JsonObj)) (emails : List Email) :
    triageEmailsWithReplyDetection gen emails = emails.map (triageReplyItemFor gen) := by
  induction emails with
  | nil => rfl
  | cons e rest ih => simp [triageEmailsWithReplyDetection, ih]

theorem triageEmails_eq_map (gen : Email → Except String (Option JsonObj))
    (emails : List Email) :
    triageEmails gen emails = emails.map (triageItemFor gen) := by
  induction emails with
  | nil => rfl
  | cons e rest ih => simp [triageEmails, ih]

/-! ## C1: the no-reply sender check -/

/-- C1 counterexample: for the sender `notifications@example.com` — which the
deterministic check does classify as no-reply — a generation-service response
whose parsed JSON claims `isReplyable = true` produces a triage item with
`isReplyable = true`.  This refutes the claim that the sender check is a hard
override forcing `isReplyable = false` for every possible response. -/
theorem noReply_override_absent_cex :
    isNoReplyAddress noReplyEmail.fromAddr = true ∧
    (triageReplyItemFor (fun _ => Except.ok (some replyClaimingResponse))
        noReplyEmail).isReplyable = JsValue.bool true := by
  decide

/-- C1 (amended): the deterministic no-reply sender check only selects the
hard-worded instruction interpolated into the prompt; the `isReplyable`
of the triage result is taken from the parsed model response (coerced by `|| false`),
so a response claiming `isReplyable = true` yields `isReplyable = true` even
for a no-reply sender. -/
theorem noReply_check_is_prompt_hint_only (email : Email) (p : JsonObj)
    (hnr : isNoReplyAddress email.fromAddr = true)
    (hrel : p.isRelevant = some (JsValue.bool true))
    (hrep : p.isReplyable = some (JsValue.bool true))
    (hclean : p.cleanedMessage = none ∨ ∃ s, p.cleanedMessage = some (JsValue.str s)) :
    promptNoReplyHint email =
      "This is a NO-REPLY address - set isReplyable to FALSE regardless of content." ∧
    ∃ r, triageEmailWithReply (some p) email = Except.ok r ∧
      r.isReplyable = JsValue.bool true := by
  constructor
  · simp [promptNoReplyHint, hnr]
  · have htrim : ∃ c, jsTrim (jsOr p.cleanedMessage (JsValue.str email.body)) =
        Except.ok c := by
      rcases hclean with h | ⟨s, h⟩
      · exact ⟨strTrim email.body, by simp [h, jsOr, jsTrim]⟩
      · by_cases hs : (JsValue.str s).truthy
        · exact ⟨strTrim s, by simp [h, jsOr, hs, jsTrim]⟩
        · exact ⟨strTrim email.body, by simp [h, jsOr, hs, jsTrim]⟩
    rcases htrim with ⟨c, hc⟩
    refine ⟨⟨true, jsOr p.isReplyable (JsValue.bool false), c,
             jsOrNull p.suggestedReply, jsOrNull p.replyReason,
             jsOrNull p.replyConfidence, some email.fromAddr,
             jsOrNull p.confidence, jsOrNull p.category⟩, ?_, ?_⟩
    · simp only [triageEmailWithReply, hrel, hc]
    · simp [jsOr, hrep, JsValue.truthy]

/-- Witness for C1 (amended) at the concrete no-reply email and the concrete
replyability-claiming response. -/
theorem noReply_check_is_prompt_hint_only_witness :
    isNoReplyAddress noReplyEmail.fromAddr = true ∧
    (promptNoReplyHint noReplyEmail =
      "This is a NO-REPLY address - set isReplyable to FALSE regardless of content." ∧
    ∃ r, triageEmailWithReply (some replyClaimingResponse) noReplyEmail = Except.ok r ∧
      r.isReplyable = JsValue.bool true) :=
  ⟨by decide,
   noReply_check_is_prompt_hint_only noReplyEmail replyClaimingResponse
     (by decide) (by decide) (by decide)
     (Or.inr ⟨"Build finished.", by decide⟩)⟩

/-- C2 (code bug): with `maxRepliesPerRun = 1` configured, two candidates that
both pass the threshold are BOTH approved by `autoApprove`, and non-interactive
auto-approval (`requireApproval = false`) likewise approves both — the
configured cap is stored by the constructor but never consulted by any
approval path, so more than `maxRepliesPerRun` candidates reach the approved
state. -/
theorem maxRepliesPerRun_cap_never_enforced :
    (mkReplyApprovalWorkflow ⟨some true, some 1⟩).maxRepliesPerRun = 1 ∧
    (autoApprove (mkReplyApprovalWorkflow ⟨some true, some 1⟩)
        twoHighConfidenceItems (mkRat 4 5)).length = 2 ∧
    (promptForApproval (mkReplyApprovalWorkflow ⟨some false, some 1⟩)
        twoHighConfidenceItems []).1.length = 2 := by
  decide

/-! ## C3: the approve-all bulk action -/

/-- C3 counterexample: answering `Approve All` at the very first prompt
approves both of two candidates while only one prompt was ever shown, so a
single user action approved the current candidate and all remaining ones —
the interactive flow does have a bulk-approve path. -/
theorem approve_all_bulk_action_cex :
    (approvalLoop twoHighConfidenceItems [UserAction.approveAll]).1.length = 2 ∧
    (approvalLoop twoHighConfidenceItems [UserAction.approveAll]).2 = 1 := by
  decide

/-- C3 (amended): the interactive flow includes an `Approve All` menu action:
choosing it at a prompt approves the current candidate and every remaining
candidate (with their unedited suggested replies) immediately, after exactly
that one prompt. -/
theorem approve_all_bulk_action_semantics (item : ReplyableItem)
    (rest : List ReplyableItem) (more : List UserAction) :
    approvalLoop (item :: rest) (UserAction.approveAll :: more) =
      (⟨item.email, item.suggestedReply⟩ ::
         rest.map (fun it => ⟨it.email, it.suggestedReply⟩), 1) := by
  rfl

/-! ## C4: chunked consolidation -/

theorem chunksOfAux_flatten {α : Type} (K : Nat) (hK : 0 < K) :
    ∀ (fuel : Nat) (l : List α), l.length ≤ fuel →
      (chunksOfAux K fuel l).flatten = l := by
  intro fuel
  induction fuel with
  | zero =>
      intro l hl
      cases l with
      | nil => rfl
      | cons a rest => simp at hl
  | succ n ih =>
      intro l hl
      cases l with
      | nil => rfl
      | cons a rest =>
          simp only [chunksOfAux, List.flatten_cons]
          rw [ih ((a :: rest).drop K)
            (by simp only [List.length_drop, List.length_cons] at hl ⊢; omega)]
          exact List.take_append_drop K (a :: rest)

theorem chunksOfAux_sizes {α : Type} (K : Nat) :
    ∀ (fuel : Nat) (l : List α) (c : List α),
      c ∈ chunksOfAux K fuel l → c.length ≤ K := by
  intro fuel
  induction fuel with
  | zero => intro l c hc; simp [chunksOfAux] at hc
  | succ n ih =>
      intro l c hc
      cases l with
      | nil => simp [chunksOfAux] at hc
      | cons a rest =>
          simp only [chunksOfAux, List.mem_cons] at hc
          rcases hc with h | h
          · subst h
            simpa using List.length_take_le K (a :: rest)
          · exact ih _ _ h

theorem chunksOfAux_count {α : Type} (K : Nat) (hK : 0 < K) :
    ∀ (fuel : Nat) (l : List α), l.length ≤ fuel → l ≠ [] →
      (chunksOfAux K fuel l).length = (l.length - 1) / K + 1 := by
  intro fuel
  induction fuel with
  | zero =>
      intro l hl hne
      cases l with
      | nil => exact absurd rfl hne
      | cons a rest => simp at hl
  | succ n ih =>
      intro l hl hne
      cases l with
      | nil => exact absurd rfl hne
      | cons a rest =>
          simp only [List.length_cons] at hl ⊢
          simp only [chunksOfAux, List.length_cons]
          by_cases hD : (a :: rest).drop K = []
          · have hdl : rest.length + 1 ≤ K := by
              have := congrArg List.length hD
              simp only [List.length_drop, List.length_cons,
                List.length_nil] at this
              omega
            rw [hD]
            have hz : chunksOfAux (α := α) K n [] = [] := by
              cases n <;> rfl
            rw [hz]
            have h0 : rest.length / K = 0 := Nat.div_eq_of_lt (by omega)
            simp [h0]
          · have hdrop : ((a :: rest).drop K).length ≤ n := by
              simp only [List.length_drop, List.length_cons]
              omega
            have hMK : K ≤ rest.length := by
              by_contra hcon
              push_neg at hcon
              exact hD (List.drop_eq_nil_of_le (by simp; omega))
            rw [ih _ hdrop hD]
            simp only [List.length_drop, List.length_cons]
            have h1 : rest.length + 1 - K - 1 = rest.length - K := by omega
            have h2 : rest.length / K = (rest.length - K) / K + 1 := by
              conv_lhs => rw [show rest.length = rest.length - K + K by omega]
              rw [Nat.add_div_right _ hK]
            rw [h1, Nat.add_sub_cancel, h2]

theorem chunksOf_flatten {α : Type} (K : Nat) (hK : 0 < K) (l : List α) :
    (chunksOf K l).flatten = l :=
  chunksOfAux_flatten K hK l.length l le_rfl

theorem chunksOf_count {α : Type} (K : Nat) (hK : 0 < K) (l : List α)
    (hne : l ≠ []) : (chunksOf K l).length = (l.length - 1) / K + 1 :=
  chunksOfAux_count K hK l.length l le_rfl hne

theorem intercalate_single (sep x : String) :
    String.intercalate sep [x] = x := rfl

/-- C4: for every chunk size `K > 0`, the consolidator issues one
generation-service call per batch, where the batches are the whole list when
it fits (`M ≤ K`, exactly one call) and the `slice` chunks otherwise
(`ceil(M/K)` calls, each of at most `K` items, concatenating to the input in
order); the consolidated output is the chunk outputs joined in chunk order by
the `## Next Batch` separator, and the code path uses `BATCH_SIZE = 15`. -/
theorem consolidation_chunking_spec (K : Nat) (hK : 0 < K)
    (gen : String → String) (l : List TriageItem) :
    (l.length ≤ K → consolidatedBatches K l = [l]) ∧
    (K < l.length →
      (consolidatedBatches K l).length = (l.length + K - 1) / K) ∧
    (∀ c ∈ consolidatedBatches K l, c.length ≤ K) ∧
    (consolidatedBatches K l).flatten = l ∧
    performConsolidatedAnalysisWith K gen l =
      String.intercalate "\n\n---\n\n## Next Batch\n\n"
        ((consolidatedBatches K l).map (processBatch gen)) ∧
    performConsolidatedAnalysis gen l =
      performConsolidatedAnalysisWith BATCH_SIZE gen l := by
  refine ⟨?_, ?_, ?_, ?_, ?_, rfl⟩
  · intro h
    simp [consolidatedBatches, h]
  · intro h
    have hne : l ≠ [] := by
      intro hnil
      subst hnil
      simp at h
    have hgt : ¬ l.length ≤ K := by omega
    rw [consolidatedBatches, if_neg hgt, chunksOf_count K hK l hne]
    have : l.length + K - 1 = (l.length - 1) + K := by omega
    rw [this, Nat.add_div_right _ hK]
  · intro c hc
    by_cases h : l.length ≤ K
    · simp [consolidatedBatches, h] at hc
      subst hc
      exact h
    · rw [consolidatedBatches, if_neg h] at hc
      exact chunksOfAux_sizes K l.length l c hc
  · by_cases h : l.length ≤ K
    · simp [consolidatedBatches, h]
    · rw [consolidatedBatches, if_neg h]
      exact chunksOf_flatten K hK l
  · by_cases h : l.length ≤ K
    · rw [performConsolidatedAnalysisWith, if_pos h, consolidatedBatches,
        if_pos h, List.map_singleton, intercalate_single]
    · rw [performConsolidatedAnalysisWith, if_neg h, consolidatedBatches,
        if_neg h]

/-- Witness for C4 at `K = 15` and a 17-item input: two chunks of sizes 15
and 2. -/
theorem consolidation_chunking_spec_witness :
    (0 < 15 ∧ 15 < seventeenTriageItems.length) ∧
    (consolidatedBatches 15 seventeenTriageItems).length =
      (seventeenTriageItems.length + 15 - 1) / 15 ∧
    (consolidatedBatches 15 seventeenTriageItems).flatten = seventeenTriageItems :=
  ⟨⟨by decide, by decide⟩,
   (consolidation_chunking_spec 15 (by decide) (fun _ => "chunk output")
       seventeenTriageItems).2.1 (by decide),
   (consolidation_chunking_spec 15 (by decide) (fun _ => "chunk output")
       seventeenTriageItems).2.2.2.1⟩

theorem triageReplyItemFor_of_parseFailed
    (gen : Email → Except String (Option JsonObj)) (email : Email)
    (hfail : triageParseFailed (gen email) = true) :
    triageReplyItemFor gen email = safeDefaultTriageItem email := by
  unfold triageReplyItemFor
  cases hgen : gen email with
  | error e =>
      rw [hgen] at hfail
      simp [triageParseFailed] at hfail
  | ok parsed =>
      rw [hgen] at hfail
      cases parsed with
      | none => rfl
      | some p =>
          have hstep : triageEmailWithReply (some p) email = Except.ok
              ⟨false, JsValue.bool false, email.body, none, none, none,
               some email.fromAddr, none, none⟩ := by
            cases hrel : p.isRelevant with
            | none => simp [triageEmailWithReply, hrel]
            | some v =>
                cases v with
                | bool b =>
                    rw [triageParseFailed] at hfail
                    simp [hrel] at hfail
                | str s => simp [triageEmailWithReply, hrel]
                | num q => simp [triageEmailWithReply, hrel]
                | null => simp [triageEmailWithReply, hrel]
          have hred : (match triageEmailWithReply (some p) email with
              | Except.ok r =>
                  (⟨r.isRelevant, r.isReplyable, r.cleanedMessage,
                    r.suggestedReply, r.replyReason, r.replyConfidence,
                    r.fromAddr, r.confidence, r.category, email, none⟩ :
                    TriageReplyItem)
              | Except.error msg =>
                  ⟨false, JsValue.bool false, email.body, none, none, none,
                   none, none, none, email, some msg⟩) =
              safeDefaultTriageItem email := by
            rw [hstep]
            rfl
          exact hred

/-- C5: the triage stage produces exactly one result per email regardless of
generation outcomes (failures are caught per email, so no response ever
aborts the loop), and an email whose response fails to parse as JSON (or
lacks a boolean `isRelevant`) gets the safe default: not relevant, not
replyable, `cleanedMessage` equal to the original body. -/
theorem triage_parse_failure_safe_default
    (gen : Email → Except String (Option JsonObj)) (emails : List Email)
    (i : Nat) (h : i < emails.length)
    (h2 : i < (triageEmailsWithReplyDetection gen emails).length) :
    (triageEmailsWithReplyDetection gen emails).length = emails.length ∧
    (triageParseFailed (gen (emails.get ⟨i, h⟩)) = true →
      (triageEmailsWithReplyDetection gen emails).get ⟨i, h2⟩ =
        safeDefaultTriageItem (emails.get ⟨i, h⟩)) := by
  constructor
  · rw [triageEmailsWithReplyDetection_eq_map, List.length_map]
  · intro hfail
    have hget : (triageEmailsWithReplyDetection gen emails).get ⟨i, h2⟩ =
        triageReplyItemFor gen (emails.get ⟨i, h⟩) := by
      simp [List.get_eq_getElem, triageEmailsWithReplyDetection_eq_map,
        List.getElem_map]
    rw [hget, triageReplyItemFor_of_parseFailed gen _ hfail]

/-- Witness for C5: a generation service returning unparseable text
(extraction yields `none`) on a one-email run. -/
theorem triage_parse_failure_safe_default_witness :
    (triageEmailsWithReplyDetection (fun _ => Except.ok none)
        [sampleEmail "w5"]).length = [sampleEmail "w5"].length ∧
    (triageEmailsWithReplyDetection (fun _ => Except.ok none)
        [sampleEmail "w5"]).get ⟨0, by decide⟩ =
      safeDefaultTriageItem ([sampleEmail "w5"].get ⟨0, by decide⟩) :=
  ⟨(triage_parse_failure_safe_default (fun _ => Except.ok none)
      [sampleEmail "w5"] 0 (by decide) (by decide)).1,
   (triage_parse_failure_safe_default (fun _ => Except.ok none)
      [sampleEmail "w5"] 0 (by decide) (by decide)).2 (by decide)⟩

/-! ## C6: per-item triage results and report counts -/

theorem filter_partition_length {α : Type} (p : α → Bool) (l : List α) :
    (l.filter p).length + (l.filter (fun x => !p x)).length = l.length := by
  induction l with
  | nil => rfl
  | cons a rest ih =>
      simp only [List.filter_cons]
      cases h : p a <;> simp [ih] <;> omega

theorem triageItemFor_email (gen : Email → Except String (Option JsonObj))
    (email : Email) : (triageItemFor gen email).email = email := by
  unfold triageItemFor
  cases gen email with
  | error m => rfl
  | ok parsed =>
      cases h : triageEmail parsed email with
      | ok r => simp [h]
      | error m => simp [h]

/-- C6: for a non-empty input list the analysis produces one triage result
per email in input order, the relevant and general results partition them,
the report counters satisfy `totalEmails = N = relevantEmails +
generalEmails`, and the consolidation stage (whose output becomes the report
body) is fed ALL triage results, relevant or not. -/
theorem analysis_per_item_counts
    (genT : Email → Except String (Option JsonObj)) (genC : String → String)
    (emails : List Email) (hne : emails ≠ []) :
    (triageEmails genT emails).length = emails.length ∧
    (∀ (i : Nat) (h : i < emails.length)
        (h2 : i < (triageEmails genT emails).length),
      ((triageEmails genT emails).get ⟨i, h2⟩).email = emails.get ⟨i, h⟩) ∧
    ((triageEmails genT emails).filter (fun r => r.isRelevant)).length +
        ((triageEmails genT emails).filter (fun r => !r.isRelevant)).length =
      emails.length ∧
    (analyze genT genC emails).summary.totalEmails = emails.length ∧
    (analyze genT genC emails).summary.relevantEmails =
      ((triageEmails genT emails).filter (fun r => r.isRelevant)).length ∧
    (analyze genT genC emails).summary.generalEmails =
      ((triageEmails genT emails).filter (fun r => !r.isRelevant)).length ∧
    (analyze genT genC emails).summary.totalEmails =
      (analyze genT genC emails).summary.relevantEmails +
        (analyze genT genC emails).summary.generalEmails ∧
    (analyze genT genC emails).analysis =
      performConsolidatedAnalysis genC (triageEmails genT emails) := by
  have hlen : (triageEmails genT emails).length = emails.length := by
    rw [triageEmails_eq_map, List.length_map]
  have hzero : ¬ emails.length = 0 := by
    intro h0
    exact hne (List.eq_nil_of_length_eq_zero h0)
  have hpart := filter_partition_length (fun r : TriageItem => r.isRelevant)
    (triageEmails genT emails)
  refine ⟨hlen, ?_, ?_, ?_, ?_, ?_, ?_, ?_⟩
  · intro i h h2
    simp [List.get_eq_getElem, triageEmails_eq_map, List.getElem_map,
      triageItemFor_email]
  · rw [← hlen]
    exact hpart
  · simp [analyze, hzero, generateReport]
  · simp [analyze, hzero, generateReport]
  · simp [analyze, hzero, generateReport]
  · simp only [analyze, if_neg hzero, generateReport]
    rw [← hlen] at *
    omega
  · simp [analyze, hzero, generateReport]

/-- Witness for C6 on a concrete two-email run where one email triages
relevant and the other does not. -/
theorem analysis_per_item_counts_witness :
    ([sampleEmail "a", noReplyEmail] ≠ ([] : List Email)) ∧
    (analyze
        (fun e => if e.id = "a"
          then Except.ok (some { JsonObj.empty with isRelevant := some (JsValue.bool true) })
          else Except.ok (some { JsonObj.empty with isRelevant := some (JsValue.bool false) }))
        (fun _ => "report body")
        [sampleEmail "a", noReplyEmail]).summary.totalEmails =
      (analyze
        (fun e => if e.id = "a"
          then Except.ok (some { JsonObj.empty with isRelevant := some (JsValue.bool true) })
          else Except.ok (some { JsonObj.empty with isRelevant := some (JsValue.bool false) }))
        (fun _ => "report body")
        [sampleEmail "a", noReplyEmail]).summary.relevantEmails +
      (analyze
        (fun e => if e.id = "a"
          then Except.ok (some { JsonObj.empty with isRelevant := some (JsValue.bool true) })
          else Except.ok (some { JsonObj.empty with isRelevant := some (JsValue.bool false) }))
        (fun _ => "report body")
        [sampleEmail "a", noReplyEmail]).summary.generalEmails :=
  ⟨by decide,
   (analysis_per_item_counts
      (fun e => if e.id = "a"
        then Except.ok (some { JsonObj.empty with isRelevant := some (JsValue.bool true) })
        else Except.ok (some { JsonObj.empty with isRelevant := some (JsValue.bool false) }))
      (fun _ => "report body")
      [sampleEmail "a", noReplyEmail] (by decide)).2.2.2.2.2.2.1⟩

/-! ## C8: reply dispatch -/

theorem sendBatchAux_spec (transport : Email → String → Except String String)
    (l : List ApprovedReply) :
    (sendBatchAux transport l).1 =
      (l.filter (fun r =>
          (sendReply transport r.email r.replyContent).success)).map
        (fun r => (sendReply transport r.email r.replyContent, r.email)) ∧
    (sendBatchAux transport l).2 =
      (l.filter (fun r =>
          !(sendReply transport r.email r.replyContent).success)).map
        (fun r => (sendReply transport r.email r.replyContent, r.email)) := by
  induction l with
  | nil => exact ⟨rfl, rfl⟩
  | cons r rest ih =>
      simp only [sendBatchAux, List.filter_cons]
      cases h : (sendReply transport r.email r.replyContent).success <;>
        simp [h, ih.1, ih.2]

/-- C8: dispatch attempts every approved reply in sequence — the `sent` and
`failed` lists are exactly the per-outcome partition of the inputs, in input
order, and together they account for every input (`total`); in particular,
with three approved replies and a transport failing exactly one of them, the
summary reports 2 sent and 1 failed. -/
theorem dispatch_partition_and_attempts
    (transport : Email → String → Except String String)
    (repliesData : List ApprovedReply) :
    (sendBatch transport repliesData).total = repliesData.length ∧
    (sendBatch transport repliesData).sent =
      (repliesData.filter (fun r =>
          (sendReply transport r.email r.replyContent).success)).map
        (fun r => (sendReply transport r.email r.replyContent, r.email)) ∧
    (sendBatch transport repliesData).failed =
      (repliesData.filter (fun r =>
          !(sendReply transport r.email r.replyContent).success)).map
        (fun r => (sendReply transport r.email r.replyContent, r.email)) ∧
    (sendBatch transport repliesData).sent.length +
        (sendBatch transport repliesData).failed.length =
      repliesData.length ∧
    (sendBatch failSecondTransport threeQueuedReplies).sent.length = 2 ∧
    (sendBatch failSecondTransport threeQueuedReplies).failed.length = 1 := by
  have hs := sendBatchAux_spec transport repliesData
  refine ⟨rfl, hs.1, hs.2, ?_, by decide, by decide⟩
  show (sendBatchAux transport repliesData).1.length +
      (sendBatchAux transport repliesData).2.length = repliesData.length
  rw [hs.1, hs.2, List.length_map, List.length_map]
  exact filter_partition_length
    (fun r => (sendReply transport r.email r.replyContent).success) repliesData

/-! ## C10: threshold auto-approval of confidence-less candidates -/

/-- C10: `autoApprove` treats a null/missing `replyConfidence` as 0 — with a
strictly positive threshold, confidence-less candidates never contribute to
the approved list (dropping them changes nothing); with threshold 0 every
candidate whose declared confidence is non-negative (the 0..1 data range) is
approved; and the approved list is always an order-preserving sublist of the
per-candidate approvals. -/
theorem autoApprove_null_confidence_policy (w : ApprovalConfig)
    (l : List ReplyableItem) (t : Rat)
    (hc : ∀ it ∈ l, 0 ≤ it.replyConfidence.getD 0) :
    (0 < t → autoApprove w l t =
      autoApprove w (l.filter fun it => it.replyConfidence.isSome) t) ∧
    (t = 0 → autoApprove w l t =
      l.map fun it => ⟨it.email, it.suggestedReply⟩) ∧
    (autoApprove w l t).Sublist
      (l.map fun it => ⟨it.email, it.suggestedReply⟩) := by
  refine ⟨?_, ?_, ?_⟩
  · intro ht
    unfold autoApprove
    rw [List.filter_filter]
    congr 1
    apply List.filter_congr
    intro it _
    cases hconf : it.replyConfidence with
    | none =>
        have : ¬ t ≤ jsNumOr none 0 := by
          simp [jsNumOr]
          exact ht
        simp [hconf, this]
    | some q => simp [hconf]
  · intro ht
    subst ht
    unfold autoApprove
    congr 1
    rw [List.filter_eq_self]
    intro it hit
    have := hc it hit
    cases hconf : it.replyConfidence with
    | none => simp [jsNumOr]
    | some q =>
        rw [hconf] at this
        simp only [Option.getD_some] at this
        by_cases hq : q = 0 <;> simp [jsNumOr, hq, this]
  · exact List.Sublist.map _ (List.filter_sublist l)

/-- Witness for C10 at threshold 1 over the mixed-confidence candidates. -/
theorem autoApprove_null_confidence_policy_witness :
    (∀ it ∈ mixedConfidenceItems, 0 ≤ it.replyConfidence.getD 0) ∧
    autoApprove (mkReplyApprovalWorkflow ⟨none, none⟩) mixedConfidenceItems 1 =
      autoApprove (mkReplyApprovalWorkflow ⟨none, none⟩)
        (mixedConfidenceItems.filter fun it => it.replyConfidence.isSome) 1 :=
  ⟨by decide,
   (autoApprove_null_confidence_policy (mkReplyApprovalWorkflow ⟨none, none⟩)
      mixedConfidenceItems 1 (by decide)).1 (by decide)⟩

/-! ## C7: dedup idempotence -/

set_option maxRecDepth 10000

/-- C7 counterexample: with a full 1000-id store, the first run processes only
the new message, but saving appends its id and the trim to the last 1000 ids
evicts id `0` — so a second run over the same source messages re-processes
message `0`: the second run yields 1 newly-processed item, not 0. -/
theorem dedup_trim_eviction_cex :
    (gmailProcess 20 thousandIdStore dedupSource).emails.length = 1 ∧
    (gmailProcess 20 thousandIdStore dedupSource).store.contains "0" = false ∧
    (gmailProcess 20 (gmailProcess 20 thousandIdStore dedupSource).store
        dedupSource).emails = [sampleEmail "0"] := by
  decide

theorem sliceLast_of_le {α : Type} (n : Nat) (l : List α)
    (h : l.length ≤ n) : sliceLast n l = l := by
  unfold sliceLast
  rw [Nat.sub_eq_zero_of_le h, List.drop_zero]

theorem gmailProcess_eq_nonew (maxResults : Nat) (store : List String)
    (source : List Email)
    (hnew : (source.take maxResults).filter
      (fun m => !store.contains m.id) = []) :
    gmailProcess maxResults store source = ⟨[], store⟩ := by
  unfold gmailProcess
  by_cases hmsg : (source.take maxResults).isEmpty
  · rw [if_pos hmsg]
  · rw [if_neg hmsg, hnew]
    rfl

theorem gmailProcess_eq_new (maxResults : Nat) (store : List String)
    (source : List Email)
    (hnew : (source.take maxResults).filter
      (fun m => !store.contains m.id) ≠ []) :
    gmailProcess maxResults store source =
      ⟨(source.take maxResults).filter (fun m => !store.contains m.id),
       saveProcessedEmails (store ++
         ((source.take maxResults).filter
            (fun m => !store.contains m.id)).map (fun m => m.id))⟩ := by
  unfold gmailProcess
  have hmsg : ¬ (source.take maxResults).isEmpty = true := by
    intro hcon
    rw [List.isEmpty_iff] at hcon
    rw [hcon] at hnew
    exact hnew rfl
  rw [if_neg hmsg]
  have hne : ¬ ((source.take maxResults).filter
      (fun m => !store.contains m.id)).isEmpty = true := by
    intro hcon
    rw [List.isEmpty_iff] at hcon
    exact hnew hcon
  rw [if_neg hne]

/-- C7 (amended): as long as the store plus the new ids of the run fit inside the
1000-id trim window, every id recorded by the first run is in the saved store
and a second run over the same source yields zero newly-processed items;
(beyond that window the trim can evict the ids of older messages still inside
the fetch window, which are then re-processed, as the counterexample shows —
the ids recorded by a run itself always survive the trim since they are the
suffix of the saved list). -/
theorem dedup_second_run_empty_within_trim (maxResults : Nat)
    (store : List String) (source : List Email)
    (hsize : (store ++ ((source.take maxResults).filter
        (fun m => !store.contains m.id)).map (fun m => m.id)).length ≤ 1000) :
    (∀ id ∈ ((source.take maxResults).filter
        (fun m => !store.contains m.id)).map (fun m => m.id),
      (gmailProcess maxResults store source).store.contains id = true) ∧
    (gmailProcess maxResults (gmailProcess maxResults store source).store
        source).emails = [] := by
  by_cases hnew : (source.take maxResults).filter
      (fun m => !store.contains m.id) = []
  · constructor
    · intro i hi
      rw [hnew] at hi
      simp at hi
    · rw [gmailProcess_eq_nonew maxResults store source hnew]
      rw [gmailProcess_eq_nonew maxResults store source hnew]
  · have h1 := gmailProcess_eq_new maxResults store source hnew
    have hsave : saveProcessedEmails (store ++
        ((source.take maxResults).filter
           (fun m => !store.contains m.id)).map (fun m => m.id)) =
        store ++ ((source.take maxResults).filter
           (fun m => !store.contains m.id)).map (fun m => m.id) := by
      unfold saveProcessedEmails
      exact sliceLast_of_le 1000 _ hsize
    rw [hsave] at h1
    have hmem : ∀ m ∈ (source.take maxResults),
        (store ++ ((source.take maxResults).filter
            (fun m => !store.contains m.id)).map
          (fun m => m.id)).contains m.id = true := by
      intro m hm
      cases hc : store.contains m.id with
      | true =>
          have hmemStore : m.id ∈ store := List.mem_of_elem_eq_true hc
          exact List.elem_eq_true_of_mem (List.mem_append_left _ hmemStore)
      | false =>
          have hp : (!store.contains m.id) = true := by rw [hc]; rfl
          have hmf : m ∈ (source.take maxResults).filter
              (fun m => !store.contains m.id) :=
            List.mem_filter.mpr ⟨hm, hp⟩
          have hmi : m.id ∈ ((source.take maxResults).filter
              (fun m => !store.contains m.id)).map (fun m => m.id) :=
            List.mem_map_of_mem (fun m => m.id) hmf
          exact List.elem_eq_true_of_mem (List.mem_append_right _ hmi)
    constructor
    · intro i hi
      rw [h1]
      rcases List.mem_map.mp hi with ⟨m, hm, hmi⟩
      subst hmi
      exact hmem m (List.mem_filter.mp hm).1
    · rw [h1]
      have hfilter : (source.take maxResults).filter
          (fun m => !(store ++ ((source.take maxResults).filter
              (fun m => !store.contains m.id)).map
            (fun m => m.id)).contains m.id) = [] := by
        rw [List.filter_eq_nil_iff]
        intro m hm
        intro hcon
        rw [hmem m hm] at hcon
        simp at hcon
      rw [gmailProcess_eq_nonew maxResults _ source hfilter]

/-- Witness for C7 (amended): a one-id store and a two-message source, well
inside the trim window. -/
theorem dedup_second_run_empty_within_trim_witness :
    ((["a"] ++ (([sampleEmail "a", sampleEmail "b"].take 5).filter
        (fun m => !(["a"] : List String).contains m.id)).map
      (fun m => m.id)).length ≤ 1000) ∧
    (gmailProcess 5 (gmailProcess 5 ["a"]
        [sampleEmail "a", sampleEmail "b"]).store
      [sampleEmail "a", sampleEmail "b"]).emails = [] :=
  ⟨by decide,
   (dedup_second_run_empty_within_trim 5 ["a"]
      [sampleEmail "a", sampleEmail "b"] (by decide)).2⟩

theorem analysisBeforeSave_of_no_analysis (l : List RunEvent)
    (h : l.any isAnalysisEvent = false) : analysisBeforeSave l = false := by
  induction l with
  | nil => rfl
  | cons ev rest ih =>
      rw [List.any_cons, Bool.or_eq_false_iff] at h
      rw [analysisBeforeSave, h.1, Bool.false_and, Bool.false_or]
      exact ih h.2

theorem analysisBeforeSave_of_no_save (l : List RunEvent)
    (h : l.any isSaveEvent = false) : analysisBeforeSave l = false := by
  induction l with
  | nil => rfl
  | cons ev rest ih =>
      rw [List.any_cons, Bool.or_eq_false_iff] at h
      have hrest : rest.any isSaveEvent = false := h.2
      rw [analysisBeforeSave, hrest, Bool.and_false, Bool.false_or]
      exact ih hrest

theorem analysisBeforeSave_append_false (A B : List RunEvent)
    (hA : A.any isAnalysisEvent = false)
    (hB : analysisBeforeSave B = false) :
    analysisBeforeSave (A ++ B) = false := by
  induction A with
  | nil => simpa using hB
  | cons ev rest ih =>
      rw [List.any_cons, Bool.or_eq_false_iff] at hA
      rw [List.cons_append, analysisBeforeSave, hA.1, Bool.false_and,
        Bool.false_or]
      exact ih hA.2

theorem filter_map_const_false {α β : Type} (f : α → β) (p : β → Bool)
    (h : ∀ a, p (f a) = false) (l : List α) : (l.map f).filter p = [] := by
  induction l with
  | nil => rfl
  | cons a rest ih => simp [h a, ih]

theorem any_map_const_false {α β : Type} (f : α → β) (p : β → Bool)
    (h : ∀ a, p (f a) = false) (l : List α) : (l.map f).any p = false := by
  induction l with
  | nil => rfl
  | cons a rest ih => simp [h a, ih]

/-- C9 counterexample: on a run with one new message the full event trace is
load, list-fetch, detail-fetch, STORE WRITE, then triage and consolidation —
the dedup store is written inside `process()`, before the triage/consolidation
stages run, contradicting the claim that no write occurs before they have
completed. -/
theorem store_write_before_triage_cex :
    resolverAnalyzeTrace 20 [] [sampleEmail "m1"] =
      [.loadIds, .fetchList, .fetchDetail "m1", .saveIds ["m1"],
       .triageCall "m1", .consolidate, .notify] ∧
    saveBeforeAnalysis (resolverAnalyzeTrace 20 [] [sampleEmail "m1"]) = true := by
  decide

/-- C9 (amended): in every run with at least one new message, the processed-id
set is read exactly once, at the very start of the run, and written exactly
once — but the write happens right after the detail fetch, BEFORE the
triage/consolidation stages (no analysis event precedes the write). -/
theorem store_single_write_after_fetch (maxResults : Nat)
    (store : List String) (source : List Email)
    (hnew : (source.take maxResults).filter
      (fun m => !store.contains m.id) ≠ []) :
    ((resolverAnalyzeTrace maxResults store source).filter isLoadEvent).length
        = 1 ∧
    (resolverAnalyzeTrace maxResults store source).head? =
      some RunEvent.loadIds ∧
    ((resolverAnalyzeTrace maxResults store source).filter isSaveEvent).length
        = 1 ∧
    analysisBeforeSave (resolverAnalyzeTrace maxResults store source) =
      false := by
  have hmsg : ¬ (source.take maxResults).isEmpty = true := by
    intro hcon
    rw [List.isEmpty_iff] at hcon
    rw [hcon] at hnew
    exact hnew (by simp)
  have hne : ¬ ((source.take maxResults).filter
      (fun m => !store.contains m.id)).isEmpty = true := by
    intro hcon
    rw [List.isEmpty_iff] at hcon
    exact hnew hcon
  have htrace : resolverAnalyzeTrace maxResults store source =
      ([.loadIds, .fetchList] ++
        (((source.take maxResults).filter
            (fun m => !store.contains m.id)).map
          (fun m => RunEvent.fetchDetail m.id) ++
         [.saveIds (saveProcessedEmails (store ++
            ((source.take maxResults).filter
               (fun m => !store.contains m.id)).map (fun m => m.id)))])) ++
      ((((source.take maxResults).filter
          (fun m => !store.contains m.id)).map
            (fun e => RunEvent.triageCall e.id) ++
        [.consolidate]) ++ [.notify]) := by
    unfold resolverAnalyzeTrace gmailProcessTrace analyzerTrace
    rw [if_neg hmsg, if_neg hne]
    rw [gmailProcess_eq_new maxResults store source hnew]
    have hlen : ¬ ((source.take maxResults).filter
        (fun m => !store.contains m.id)).length = 0 := by
      intro hcon
      exact hnew (List.eq_nil_of_length_eq_zero hcon)
    rw [if_neg hlen]
    simp [List.append_assoc]
  rw [htrace]
  refine ⟨?_, ?_, ?_, ?_⟩
  · simp only [List.filter_append]
    rw [filter_map_const_false (fun m : Email => RunEvent.fetchDetail m.id)
      isLoadEvent (fun a => rfl)]
    rw [filter_map_const_false (fun e : Email => RunEvent.triageCall e.id)
      isLoadEvent (fun a => rfl)]
    simp [isLoadEvent]
  · rfl
  · simp only [List.filter_append]
    rw [filter_map_const_false (fun m : Email => RunEvent.fetchDetail m.id)
      isSaveEvent (fun a => rfl)]
    rw [filter_map_const_false (fun e : Email => RunEvent.triageCall e.id)
      isSaveEvent (fun a => rfl)]
    simp [isSaveEvent, isLoadEvent]
  · apply analysisBeforeSave_append_false
    · simp only [List.any_append]
      rw [any_map_const_false (fun m : Email => RunEvent.fetchDetail m.id)
        isAnalysisEvent (fun a => rfl)]
      simp [isAnalysisEvent]
    · apply analysisBeforeSave_of_no_save
      simp only [List.any_append]
      rw [any_map_const_false (fun e : Email => RunEvent.triageCall e.id)
        isSaveEvent (fun a => rfl)]
      simp [isSaveEvent]

/-- Witness for C9 (amended) on a concrete one-new-message run. -/
theorem store_single_write_after_fetch_witness :
    (([sampleEmail "m1"].take 20).filter
        (fun m => !([] : List String).contains m.id) ≠ []) ∧
    ((resolverAnalyzeTrace 20 [] [sampleEmail "m1"]).filter
        isSaveEvent).length = 1 ∧
    analysisBeforeSave (resolverAnalyzeTrace 20 [] [sampleEmail "m1"]) =
      false :=
  ⟨by decide,
   (store_single_write_after_fetch 20 [] [sampleEmail "m1"] (by decide)).2.2.1,
   (store_single_write_after_fetch 20 [] [sampleEmail "m1"] (by decide)).2.2.2⟩
